import Mathlib

/-!
Shallow embedding of the Go HTTP user-CRUD service (`src/main.go`) and proofs
about its validation rules, handlers and store interaction.

Strings are modelled as `List Char` (Go strings restricted to valid UTF-8,
which is the domain of every handler input here).  Go's `len` on a string
counts UTF-8 bytes, so it is modelled separately as `goLen`.

The record store (gorm) is an external collaborator of the repository; its
operations are modelled from the spec's Record Store Adapter interface (§4.2)
over an explicit `Store` state, with a Boolean oracle per handler call for
the external write/query failures the spec allows (`fails(WriteError)` etc.).
-/

namespace GoApp

/-- Character class `[a-zA-Z0-9._%+-]` of the local part of the email regex
in `isValidEmail` (src/main.go line 55). -/
def isLocalChar (c : Char) : Bool :=
  c.isAlpha || c.isDigit || c == '.' || c == '_' || c == '%' || c == '+' || c == '-'

/-- Character class `[a-zA-Z0-9.-]` of the domain part of the email regex. -/
def isDomainChar (c : Char) : Bool :=
  c.isAlpha || c.isDigit || c == '.' || c == '-'

/-- Split a list at the first occurrence of `c`: returns the parts strictly
before and strictly after that occurrence. -/
def splitAtFirst (c : Char) : List Char → Option (List Char × List Char)
  | [] => none
  | x :: xs =>
    if x = c then some ([], xs)
    else match splitAtFirst c xs with
      | none => none
      | some p => some (x :: p.1, p.2)

/-- Split a list at the last occurrence of `c`. -/
def splitAtLast (c : Char) (s : List Char) : Option (List Char × List Char) :=
  match splitAtFirst c s.reverse with
  | none => none
  | some p => some (p.2.reverse, p.1.reverse)

/-- `isValidEmail` (src/main.go lines 54-57): decides whether the whole string
matches `^[a-zA-Z0-9._%+-]+@[a-zA-Z0-9.-]+\.[a-zA-Z]\x7b2,\x7d$`.  Since none
of the three character classes contains `@`, a match splits the string at its
unique `@`; since the trailing letter block contains no `.`, the part after
the `@` splits at its last `.`. -/
def isValidEmail (s : List Char) : Bool :=
  match splitAtFirst '@' s with
  | none => false
  | some lr =>
    !lr.1.isEmpty && lr.1.all isLocalChar &&
      (match splitAtLast '.' lr.2 with
       | none => false
       | some dt =>
         !dt.1.isEmpty && dt.1.all isDomainChar &&
           (decide (2 ≤ dt.2.length) && dt.2.all Char.isAlpha))

/-- Denotation of the regular expression
`^[a-zA-Z0-9._%+-]+@[a-zA-Z0-9.-]+\.[a-zA-Z]\x7b2,\x7d$` as a proposition:
the string is a local part, a literal `@`, a domain part, a literal `.` and a
block of at least two letters. -/
def emailRegexMatch (s : List Char) : Prop :=
  ∃ lp dom tld : List Char,
    s = lp ++ '@' :: (dom ++ '.' :: tld) ∧
    lp ≠ [] ∧ lp.all isLocalChar = true ∧
    dom ≠ [] ∧ dom.all isDomainChar = true ∧
    2 ≤ tld.length ∧ tld.all Char.isAlpha = true

/-- Value of a decimal digit string: `none` on an empty string or any
non-digit character, mirroring the digit loop of Go's `strconv.ParseInt`. -/
def digitsVal? (cs : List Char) : Option Nat :=
  if cs.isEmpty then none
  else
    cs.foldl
      (fun acc c =>
        match acc with
        | none => none
        | some a => if c.isDigit then some (a * 10 + (c.toNat - '0'.toNat)) else none)
      (some 0)

/-- Go's `strconv.Atoi` (= `ParseInt(s, 10, 0)` with 64-bit `int`): an
optional single leading sign, then one or more decimal digits, with the
64-bit range check; any other input is an error, modelled as `none`. -/
def goAtoi (s : List Char) : Option Int :=
  match s with
  | '+' :: rest =>
    match digitsVal? rest with
    | none => none
    | some n => if n < 2 ^ 63 then some (n : Int) else none
  | '-' :: rest =>
    match digitsVal? rest with
    | none => none
    | some n => if n ≤ 2 ^ 63 then some (-(n : Int)) else none
  | _ =>
    match digitsVal? s with
    | none => none
    | some n => if n < 2 ^ 63 then some (n : Int) else none

/-- Go's `len` on a string: the number of UTF-8 bytes, not characters. -/
def goLen (s : List Char) : Nat := (s.map Char.utf8Size).sum

/-- The `User` entity (src/main.go lines 20-24): `ID uint`, `Name string`,
`Email string`. -/
structure User where
  id : Nat
  name : List Char
  email : List Char
deriving DecidableEq, Repr

/-- Modelled from the spec: the state of the Record Store Adapter (§4.2),
whose implementation (the object-relational mapper) is external to the
repository: the `users` table and the next id the store will assign. -/
structure Store where
  rows : List User
  nextId : Nat
deriving DecidableEq, Repr

/-- Modelled from the spec: `listAll() -> [User]` (§4.2); the underlying
`db.Find` is external to the repository. -/
def listAll (st : Store) : List User := st.rows

/-- Modelled from the spec: `getById(id) -> User | fails(NotFound)` (§4.2);
the underlying `db.First(&user, id)` is external to the repository. -/
def getById (i : Int) (st : Store) : Option User :=
  st.rows.find? (fun u => ((u.id : Int) == i))

/-- Modelled from the spec: `insert(User) -> User (with id populated)` (§4.2),
id "generated by the store on insert" (§3); the underlying `db.Create` is
external to the repository. -/
def insert (u : User) (st : Store) : User × Store :=
  let v : User := { u with id := st.nextId }
  (v, { rows := st.rows ++ [v], nextId := st.nextId + 1 })

/-- Modelled from the spec: `update(User) -> User | fails(WriteError)`,
"full-row save after in-memory merge of changed fields" (§4.2); the
underlying `db.Save` is external to the repository.  Replaces the row with
the same primary key. -/
def save (u : User) (st : Store) : Store :=
  { st with rows := st.rows.map (fun r => if r.id = u.id then u else r) }

/-- Modelled from the spec: `deleteById(id) -> () | fails(WriteError)` (§4.2);
per §8/§9, deleting an already-absent id takes the `WriteError` failure path.
The underlying `db.Delete` is external to the repository. -/
def deleteById (i : Int) (st : Store) : Option Store :=
  if st.rows.any (fun u => ((u.id : Int) == i)) then
    some { st with rows := st.rows.filter (fun u => !((u.id : Int) == i)) }
  else none

/-- A JSON response body as the handlers produce it. -/
inductive RespBody where
  | empty : RespBody
  | errMsg : String → RespBody
  | user : User → RespBody
  | users : List User → RespBody
deriving DecidableEq, Repr

/-- An HTTP response: status code and body. -/
structure Response where
  status : Nat
  body : RespBody
deriving DecidableEq, Repr

/-- Result of `json.NewDecoder(r.Body).Decode(&user)`: either a decode error
(malformed JSON / wrong field types) or a `User` value in which every field
absent from the JSON object keeps its zero value (`0` / the empty string). -/
inductive ReqBody where
  | badJson : ReqBody
  | decoded : User → ReqBody
deriving DecidableEq, Repr

/-- `getUsers` handler (src/main.go lines 43-52).  `findOk` is the oracle for
the external `db.Find` call succeeding. -/
def getUsers (findOk : Bool) (st : Store) : Response × Store :=
  if findOk then (⟨200, .users (listAll st)⟩, st)
  else (⟨500, .errMsg "Failed to retrieve users"⟩, st)

/-- `createUser` handler (src/main.go lines 59-85).  `createOk` is the oracle
for the external `db.Create` call succeeding. -/
def createUser (body : ReqBody) (createOk : Bool) (st : Store) : Response × Store :=
  match body with
  | .badJson => (⟨400, .errMsg "Invalid request payload"⟩, st)
  | .decoded u =>
    if u.name = [] then (⟨400, .errMsg "Name is required"⟩, st)
    else if u.email = [] ∨ isValidEmail u.email = false then
      (⟨400, .errMsg "Invalid email format"⟩, st)
    else if createOk then
      (⟨201, .user (insert u st).1⟩, (insert u st).2)
    else (⟨500, .errMsg "Failed to create user"⟩, st)

/-- The in-place merge of src/main.go lines 118-124: a supplied non-empty
name or email overwrites the fetched row's field, an empty one leaves it
unchanged; the id always comes from the fetched row. -/
def mergeUpdate (user ud : User) : User :=
  { user with
    name := if ud.name ≠ [] then ud.name else user.name,
    email := if ud.email ≠ [] then ud.email else user.email }

/-- `updateUser` handler (src/main.go lines 87-130).  `saveOk` is the oracle
for the external `db.Save` call succeeding; the source discards `db.Save`'s
result object, so the response does not depend on `saveOk`, only the stored
state does. -/
def updateUser (idStr : List Char) (body : ReqBody) (saveOk : Bool) (st : Store) :
    Response × Store :=
  match goAtoi idStr with
  | none => (⟨400, .errMsg "Invalid user ID"⟩, st)
  | some i =>
    match getById i st with
    | none => (⟨404, .errMsg "User not found"⟩, st)
    | some user =>
      match body with
      | .badJson => (⟨400, .errMsg "Invalid request payload"⟩, st)
      | .decoded ud =>
        if ud.name ≠ [] ∧ goLen ud.name < 3 then
          (⟨400, .errMsg "Name must be at least 3 characters"⟩, st)
        else if ud.email ≠ [] ∧ isValidEmail ud.email = false then
          (⟨400, .errMsg "Invalid email format"⟩, st)
        else
          (⟨200, .user (mergeUpdate user ud)⟩,
           if saveOk then save (mergeUpdate user ud) st else st)

/-- `deleteUser` handler (src/main.go lines 132-146).  `deleteOk` is the
oracle for the external part of the `db.Delete` call succeeding. -/
def deleteUser (idStr : List Char) (deleteOk : Bool) (st : Store) : Response × Store :=
  match goAtoi idStr with
  | none => (⟨400, .errMsg "Invalid user ID"⟩, st)
  | some i =>
    match (if deleteOk then deleteById i st else none) with
    | none => (⟨500, .errMsg "Failed to delete user"⟩, st)
    | some st2 => (⟨204, .empty⟩, st2)

/-- A row's email is non-empty and accepted by `isValidEmail`. -/
def emailOkB (u : User) : Bool := !u.email.isEmpty && isValidEmail u.email

/-- The store invariant of spec §3: every persisted row has a non-empty valid
email. -/
def emailInvB (st : Store) : Bool := st.rows.all emailOkB

/-- A non-empty list is not `isEmpty`. -/
theorem isEmpty_eq_false_of_ne_nil {l : List Char} (h : l ≠ []) : l.isEmpty = false := by
  cases l with
  | nil => exact absurd rfl h
  | cons x xs => rfl

/-- `splitAtFirst` at the exhibited first occurrence. -/
theorem splitAtFirst_append (c : Char) (l r : List Char) (h : c ∉ l) :
    splitAtFirst c (l ++ c :: r) = some (l, r) := by
  induction l with
  | nil => simp [splitAtFirst]
  | cons x xs ih =>
    have hx : ¬ x = c := fun he => h (he ▸ List.mem_cons_self x xs)
    have hxs : c ∉ xs := fun hm => h (List.mem_cons_of_mem _ hm)
    simp [splitAtFirst, hx, ih hxs]

/-- A successful `splitAtFirst` decomposes the list, and the left part does
not contain the separator. -/
theorem splitAtFirst_eq_some (c : Char) (s a b : List Char)
    (h : splitAtFirst c s = some (a, b)) : s = a ++ c :: b ∧ c ∉ a := by
  induction s generalizing a b with
  | nil => simp [splitAtFirst] at h
  | cons x xs ih =>
    by_cases hx : x = c
    · subst hx
      simp [splitAtFirst] at h
      obtain ⟨ha, hb⟩ := h
      subst ha; subst hb
      exact ⟨rfl, by simp⟩
    · cases hs : splitAtFirst c xs with
      | none => simp [splitAtFirst, hx, hs] at h
      | some p =>
        obtain ⟨a1, b1⟩ := p
        simp only [splitAtFirst, if_neg hx, hs] at h
        obtain ⟨ha, hb⟩ := Prod.mk.injEq .. ▸ (Option.some.injEq .. ▸ h)
        obtain ⟨hxs, hnot⟩ := ih a1 b1 hs
        subst hb
        constructor
        · rw [← ha, hxs]; rfl
        · rw [← ha]
          intro hmem
          rcases List.mem_cons.mp hmem with h1 | h2
          · exact hx h1.symm
          · exact hnot h2

/-- `splitAtFirst` misses exactly when the separator is absent. -/
theorem splitAtFirst_of_not_mem (c : Char) (s : List Char) (h : c ∉ s) :
    splitAtFirst c s = none := by
  induction s with
  | nil => rfl
  | cons x xs ih =>
    have hx : ¬ x = c := fun he => h (he ▸ List.mem_cons_self x xs)
    have hxs : c ∉ xs := fun hm => h (List.mem_cons_of_mem _ hm)
    simp [splitAtFirst, hx, ih hxs]

/-- `splitAtLast` at the exhibited last occurrence. -/
theorem splitAtLast_append (c : Char) (d t : List Char) (h : c ∉ t) :
    splitAtLast c (d ++ c :: t) = some (d, t) := by
  have hrev : (d ++ c :: t).reverse = t.reverse ++ c :: d.reverse := by
    simp [List.reverse_append]
  have hmem : c ∉ t.reverse := by
    intro hm; exact h (List.mem_reverse.mp hm)
  unfold splitAtLast
  rw [hrev, splitAtFirst_append c _ _ hmem]
  simp

/-- A successful `splitAtLast` decomposes the list, and the right part does
not contain the separator. -/
theorem splitAtLast_eq_some (c : Char) (s d t : List Char)
    (h : splitAtLast c s = some (d, t)) : s = d ++ c :: t ∧ c ∉ t := by
  unfold splitAtLast at h
  cases hs : splitAtFirst c s.reverse with
  | none => rw [hs] at h; simp at h
  | some p =>
    obtain ⟨a, b⟩ := p
    rw [hs] at h
    simp only [Option.some.injEq, Prod.mk.injEq] at h
    obtain ⟨hd, ht⟩ := h
    obtain ⟨hdecomp, hnot⟩ := splitAtFirst_eq_some c s.reverse a b hs
    have hs2 : s = b.reverse ++ c :: a.reverse := by
      have := congrArg List.reverse hdecomp
      simpa [List.reverse_append] using this
    constructor
    · rw [hs2, hd, ht]
    · rw [← ht]
      intro hm
      exact hnot (List.mem_reverse.mp hm)

/-- A character satisfying an all-true predicate that `c` fails cannot put
`c` in the list. -/
theorem not_mem_of_all_ne {p : Char → Bool} {l : List Char} {c : Char}
    (hall : l.all p = true) (hc : p c = false) : c ∉ l := by
  intro hm
  have := List.all_eq_true.mp hall c hm
  rw [hc] at this
  cases this

/-- `isValidEmail` agrees with the denotation of the regular expression. -/
theorem isValidEmail_true_iff (s : List Char) :
    isValidEmail s = true ↔ emailRegexMatch s := by
  constructor
  · intro h
    unfold isValidEmail at h
    cases h1 : splitAtFirst '@' s with
    | none => rw [h1] at h; cases h
    | some lr =>
      obtain ⟨lp, rest⟩ := lr
      rw [h1] at h
      dsimp only at h
      cases h2 : splitAtLast '.' rest with
      | none => rw [h2] at h; simp at h
      | some dt =>
        obtain ⟨dom, tld⟩ := dt
        rw [h2] at h
        simp only [Bool.and_eq_true, Bool.not_eq_true', decide_eq_true_eq] at h
        obtain ⟨⟨hlp, hlpall⟩, ⟨hdom, hdomall⟩, htl, htlall⟩ := h
        obtain ⟨hseq, _⟩ := splitAtFirst_eq_some '@' s lp rest h1
        obtain ⟨hreq, _⟩ := splitAtLast_eq_some '.' rest dom tld h2
        refine ⟨lp, dom, tld, ?_, ?_, hlpall, ?_, hdomall, htl, htlall⟩
        · rw [hseq, hreq]
        · intro he; rw [he] at hlp; cases hlp
        · intro he; rw [he] at hdom; cases hdom
  · rintro ⟨lp, dom, tld, hs, hlp, hlpall, hdom, hdomall, htl, htlall⟩
    have hat : ('@' : Char) ∉ lp :=
      not_mem_of_all_ne hlpall (by decide)
    have hdot : ('.' : Char) ∉ tld :=
      not_mem_of_all_ne htlall (by decide)
    have h1 : splitAtFirst '@' s = some (lp, dom ++ '.' :: tld) := by
      rw [hs]; exact splitAtFirst_append '@' lp _ hat
    have h2 : splitAtLast '.' (dom ++ '.' :: tld) = some (dom, tld) :=
      splitAtLast_append '.' dom tld hdot
    unfold isValidEmail
    rw [h1]
    simp [h2, hlpall, hdomall, htlall, htl,
      isEmpty_eq_false_of_ne_nil hlp, isEmpty_eq_false_of_ne_nil hdom]

/-- Concrete user used by witnesses: id 1, name Ann, email a@b.co. -/
def annUser : User := ⟨1, "Ann".toList, "a@b.co".toList⟩

/-- Concrete store used by witnesses: one row (Ann), next id 2. -/
def st1 : Store := ⟨[annUser], 2⟩

/-- C1: `isValidEmail s` is true exactly when `s` fully matches the regular
expression of src/main.go line 55; in particular it is false for every string
with no `@` and for every string with no `.`-delimited suffix of two or more
letters. -/
theorem isValidEmail_matches_email_regex (s : List Char) :
    (isValidEmail s = true ↔ emailRegexMatch s) ∧
    ('@' ∉ s → isValidEmail s = false) ∧
    ((∀ p tld : List Char, s = p ++ '.' :: tld →
        ¬(2 ≤ tld.length ∧ tld.all Char.isAlpha = true)) →
      isValidEmail s = false) := by
  refine ⟨isValidEmail_true_iff s, ?_, ?_⟩
  · intro h
    unfold isValidEmail
    rw [splitAtFirst_of_not_mem '@' s h]
  · intro h
    cases hv : isValidEmail s with
    | false => rfl
    | true =>
      obtain ⟨lp, dom, tld, hs, _, _, _, _, htl, htlall⟩ := (isValidEmail_true_iff s).mp hv
      exfalso
      refine h (lp ++ '@' :: dom) tld ?_ ⟨htl, htlall⟩
      rw [hs]
      simp

/-- Witness for C1: a matching string is accepted, a string without `@` is
rejected. -/
theorem isValidEmail_matches_email_regex_witness :
    isValidEmail "a@b.co".toList = true ∧ isValidEmail "ab.co".toList = false :=
  ⟨(isValidEmail_matches_email_regex ("a@b.co".toList)).1.mpr
      ⟨"a".toList, "b".toList, "co".toList, by decide, by decide, by decide, by decide,
        by decide, by decide, by decide⟩,
    (isValidEmail_matches_email_regex ("ab.co".toList)).2.1 (by decide)⟩

/-- C8: on PUT, a non-numeric id is answered 400 and a numeric id matching no
stored row is answered 404, whatever the request body and the save oracle,
because the lookup precedes body decoding. -/
theorem updateUser_bad_id_and_not_found (idStr : List Char) (body : ReqBody)
    (ok : Bool) (st : Store) :
    (goAtoi idStr = none →
      updateUser idStr body ok st = (⟨400, .errMsg "Invalid user ID"⟩, st)) ∧
    (∀ i, goAtoi idStr = some i → getById i st = none →
      updateUser idStr body ok st = (⟨404, .errMsg "User not found"⟩, st)) := by
  constructor
  · intro h
    simp [updateUser, h]
  · intro i h1 h2
    simp [updateUser, h1, h2]

/-- Witness for C8 at a non-numeric and at an unknown id. -/
theorem updateUser_bad_id_and_not_found_witness :
    updateUser ("x".toList) .badJson true st1 = (⟨400, .errMsg "Invalid user ID"⟩, st1) ∧
    updateUser ("7".toList) .badJson true st1 = (⟨404, .errMsg "User not found"⟩, st1) :=
  ⟨(updateUser_bad_id_and_not_found ("x".toList) .badJson true st1).1 (by decide),
    (updateUser_bad_id_and_not_found ("7".toList) .badJson true st1).2 7 (by decide) (by decide)⟩

/-- C5: a DELETE whose numeric id matches no stored row takes the store's
WriteError path and is answered 500 with the generic delete-failure body, the
store unchanged; being a total function, the handler does not crash. -/
theorem deleteUser_absent_id_500 (idStr : List Char) (i : Int) (ok : Bool) (st : Store)
    (hid : goAtoi idStr = some i)
    (habsent : st.rows.any (fun u => ((u.id : Int) == i)) = false) :
    deleteUser idStr ok st = (⟨500, .errMsg "Failed to delete user"⟩, st) := by
  have hdel : deleteById i st = none := by
    simp [deleteById, habsent]
  cases ok <;> simp [deleteUser, hid, hdel]

/-- Witness for C5: deleting the absent id 7 from the one-row store. -/
theorem deleteUser_absent_id_500_witness :
    deleteUser ("7".toList) true st1 = (⟨500, .errMsg "Failed to delete user"⟩, st1) :=
  deleteUser_absent_id_500 ("7".toList) 7 true st1 (by decide) (by decide)

/-- C4 fails on the source: updateUser discards the result of `db.Save`
(src/main.go line 126), so a request that passes id parsing, lookup, decoding
and validation is answered 200 with the merged user even when the save fails;
here the store still holds Ann's old name while the response reports Bob. -/
theorem updateUser_ignores_save_failure :
    updateUser ("1".toList) (.decoded ⟨0, "Bob".toList, []⟩) false st1 =
      (⟨200, .user ⟨1, "Bob".toList, "a@b.co".toList⟩⟩, st1) := by
  decide

/-- C9: a DELETE with a non-numeric id is answered 400 with the store
untouched; a numeric id whose delete the store accepts is answered 204 with
an empty body, and a subsequent getUsers lists rows among which that id no
longer occurs. -/
theorem deleteUser_removes_row (idStr : List Char) (ok : Bool) (st : Store) :
    (goAtoi idStr = none →
      deleteUser idStr ok st = (⟨400, .errMsg "Invalid user ID"⟩, st)) ∧
    (∀ i st2, goAtoi idStr = some i → deleteById i st = some st2 →
      deleteUser idStr true st = (⟨204, .empty⟩, st2) ∧
      getUsers true st2 = (⟨200, .users (listAll st2)⟩, st2) ∧
      ∀ u ∈ listAll st2, ¬((u.id : Int) = i)) := by
  constructor
  · intro h
    simp [deleteUser, h]
  · intro i st2 h1 h2
    refine ⟨by simp [deleteUser, h1, h2], by simp [getUsers], ?_⟩
    unfold deleteById at h2
    split at h2
    · injection h2 with h2
      subst h2
      intro u hu heq
      have hmem := (List.mem_filter.mp hu).2
      rw [heq] at hmem
      simp at hmem
    · cases h2

/-- Witness for C9: a non-numeric id, then deleting Ann empties the list. -/
theorem deleteUser_removes_row_witness :
    deleteUser ("x".toList) true st1 = (⟨400, .errMsg "Invalid user ID"⟩, st1) ∧
    deleteUser ("1".toList) true st1 = (⟨204, .empty⟩, ⟨[], 2⟩) :=
  ⟨(deleteUser_removes_row ("x".toList) true st1).1 (by decide),
    ((deleteUser_removes_row ("1".toList) true st1).2 1 ⟨[], 2⟩ (by decide) (by decide)).1⟩

/-- C6: a POST with a non-empty name and a valid email that the store accepts
is answered 201 echoing the submitted name and email, with the id assigned by
the store's counter — positive whenever the counter is — independent of any
id carried by the request body. -/
theorem createUser_success (u : User) (st : Store) (hn : u.name ≠ [])
    (he : isValidEmail u.email = true) (hpos : 0 < st.nextId) :
    createUser (.decoded u) true st =
      (⟨201, .user ⟨st.nextId, u.name, u.email⟩⟩,
        ⟨st.rows ++ [⟨st.nextId, u.name, u.email⟩], st.nextId + 1⟩) ∧
    0 < (⟨st.nextId, u.name, u.email⟩ : User).id := by
  have hene : u.email ≠ [] := by
    intro hx
    rw [hx] at he
    exact absurd he (by decide)
  have h1 : createUser (.decoded u) true st =
      (⟨201, .user (insert u st).1⟩, (insert u st).2) := by
    simp [createUser, hn, he, hene]
  refine ⟨?_, hpos⟩
  rw [h1]
  rfl

/-- Witness for C6: the body carries id 99, yet the created row gets the
store's next id 2. -/
theorem createUser_success_witness :
    createUser (.decoded ⟨99, "Ann".toList, "a@b.co".toList⟩) true st1 =
      (⟨201, .user ⟨st1.nextId, "Ann".toList, "a@b.co".toList⟩⟩,
        ⟨st1.rows ++ [⟨st1.nextId, "Ann".toList, "a@b.co".toList⟩], st1.nextId + 1⟩) ∧
    0 < (⟨st1.nextId, "Ann".toList, "a@b.co".toList⟩ : User).id :=
  createUser_success ⟨99, "Ann".toList, "a@b.co".toList⟩ st1 (by decide) (by decide) (by decide)

/-- C7: createUser answers 400 exactly when the body is malformed JSON, the
decoded name is empty, or the decoded email is empty or rejected by the
pattern; every 400 leaves the store untouched, and any other request reaches
the insert, getting 201 or 500 according to the store. -/
theorem createUser_400_iff (body : ReqBody) (ok : Bool) (st : Store) :
    ((createUser body ok st).1.status = 400 ↔
      (body = .badJson ∨ ∃ u, body = .decoded u ∧
        (u.name = [] ∨ u.email = [] ∨ isValidEmail u.email = false))) ∧
    ((createUser body ok st).1.status = 400 → (createUser body ok st).2 = st) ∧
    (∀ u, body = .decoded u → u.name ≠ [] →
      ¬(u.email = [] ∨ isValidEmail u.email = false) →
      (createUser body ok st).1.status = if ok then 201 else 500) := by
  cases body with
  | badJson =>
    refine ⟨⟨fun _ => Or.inl rfl, fun _ => rfl⟩, fun _ => rfl, ?_⟩
    intro v hv
    cases hv
  | decoded u =>
    by_cases hn : u.name = []
    · have hr : createUser (.decoded u) ok st = (⟨400, .errMsg "Name is required"⟩, st) := by
        simp [createUser, hn]
      rw [hr]
      refine ⟨⟨fun _ => Or.inr ⟨u, rfl, Or.inl hn⟩, fun _ => rfl⟩, fun _ => rfl, ?_⟩
      intro v hv hne _
      injection hv with hv
      subst hv
      exact absurd hn hne
    · by_cases he : u.email = [] ∨ isValidEmail u.email = false
      · have hr : createUser (.decoded u) ok st =
            (⟨400, .errMsg "Invalid email format"⟩, st) := by
          simp only [createUser]
          rw [if_neg hn, if_pos he]
        rw [hr]
        refine ⟨⟨fun _ => Or.inr ⟨u, rfl, Or.inr ?_⟩, fun _ => rfl⟩, fun _ => rfl, ?_⟩
        · exact he.imp id id
        · intro v hv _ hne
          injection hv with hv
          subst hv
          exact absurd he hne
      · have hr : createUser (.decoded u) ok st =
            if ok then (⟨201, .user (insert u st).1⟩, (insert u st).2)
            else (⟨500, .errMsg "Failed to create user"⟩, st) := by
          simp only [createUser]
          rw [if_neg hn, if_neg he]
        refine ⟨?_, ?_, ?_⟩
        · rw [hr]
          constructor
          · intro h400
            exfalso
            cases ok <;> simp at h400
          · intro hrhs
            exfalso
            rcases hrhs with h1 | ⟨v, hv, h2⟩
            · cases h1
            · injection hv with hv
              subst hv
              rcases h2 with h3 | h3 | h3
              · exact hn h3
              · exact he (Or.inl h3)
              · exact he (Or.inr h3)
        · rw [hr]
          intro h400
          exfalso
          cases ok <;> simp at h400
        · intro v hv _ _
          injection hv with hv
          subst hv
          rw [hr]
          cases ok <;> rfl

/-- Witness for C7: an empty name is answered 400, and a passing body with a
succeeding store is answered 201. -/
theorem createUser_400_iff_witness :
    (createUser (.decoded ⟨0, [], "a@b.co".toList⟩) true st1).1.status = 400 ∧
    (createUser (.decoded ⟨0, "Dan".toList, "d@e.fg".toList⟩) true st1).1.status = 201 :=
  ⟨(createUser_400_iff (.decoded ⟨0, [], "a@b.co".toList⟩) true st1).1.mpr
      (Or.inr ⟨⟨0, [], "a@b.co".toList⟩, rfl, Or.inl rfl⟩),
    (createUser_400_iff (.decoded ⟨0, "Dan".toList, "d@e.fg".toList⟩) true st1).2.2
      ⟨0, "Dan".toList, "d@e.fg".toList⟩ rfl (by decide) (by decide)⟩

/-- Counterexample to C2 as written: the name "éa" is non-empty and 2
characters long, yet updating Ann with it is answered 200, not 400, because
the source compares Go's byte length (3 for "éa") against 3, not the
character count. -/
theorem updateUser_two_char_name_accepted :
    (("éa".toList) ≠ [] ∧ (("éa".toList)).length < 3) ∧
    (updateUser ("1".toList) (.decoded ⟨0, "éa".toList, []⟩) true st1).1.status = 200 :=
  ⟨⟨by decide, by decide⟩, by decide⟩

/-- C2 (amended: the length compared is the Go byte length of the name, not
its character count): on PUT of an existing user each supplied field is
checked independently — a non-empty name of byte length < 3 is answered 400
with the at-least-3-characters message, a non-empty email failing the pattern
is answered 400 — an empty field leaves the stored value unchanged, and when
all supplied non-empty fields pass, the handler merges them into the fetched
row, saves the merged row, and answers 200 with it. -/
theorem updateUser_field_rules (idStr : List Char) (i : Int) (st : Store)
    (user ud : User) (hid : goAtoi idStr = some i) (hget : getById i st = some user) :
    (ud.name ≠ [] → goLen ud.name < 3 →
      updateUser idStr (.decoded ud) true st =
        (⟨400, .errMsg "Name must be at least 3 characters"⟩, st)) ∧
    (¬(ud.name ≠ [] ∧ goLen ud.name < 3) → ud.email ≠ [] → isValidEmail ud.email = false →
      updateUser idStr (.decoded ud) true st = (⟨400, .errMsg "Invalid email format"⟩, st)) ∧
    (¬(ud.name ≠ [] ∧ goLen ud.name < 3) → ¬(ud.email ≠ [] ∧ isValidEmail ud.email = false) →
      updateUser idStr (.decoded ud) true st =
        (⟨200, .user (mergeUpdate user ud)⟩, save (mergeUpdate user ud) st)) ∧
    (ud.name = [] → (mergeUpdate user ud).name = user.name) ∧
    (ud.email = [] → (mergeUpdate user ud).email = user.email) ∧
    (ud.name ≠ [] → (mergeUpdate user ud).name = ud.name) ∧
    (ud.email ≠ [] → (mergeUpdate user ud).email = ud.email) := by
  refine ⟨?_, ?_, ?_, ?_, ?_, ?_, ?_⟩
  · intro h1 h2
    simp [updateUser, hid, hget, h1, h2]
  · intro h1 h2 h3
    simp [updateUser, hid, hget, h1, h2, h3]
  · intro h1 h2
    simp [updateUser, hid, hget, h1, h2]
  · intro h
    simp [mergeUpdate, h]
  · intro h
    simp [mergeUpdate, h]
  · intro h
    simp [mergeUpdate, h]
  · intro h
    simp [mergeUpdate, h]

/-- Witness for C2 (amended): the 2-byte name "Bo" is answered 400; the name
"Bob" alone is answered 200 with Ann's email unchanged and the merged row
saved. -/
theorem updateUser_field_rules_witness :
    updateUser ("1".toList) (.decoded ⟨0, "Bo".toList, []⟩) true st1 =
      (⟨400, .errMsg "Name must be at least 3 characters"⟩, st1) ∧
    updateUser ("1".toList) (.decoded ⟨0, "Bob".toList, []⟩) true st1 =
      (⟨200, .user (mergeUpdate annUser ⟨0, "Bob".toList, []⟩)⟩,
        save (mergeUpdate annUser ⟨0, "Bob".toList, []⟩) st1) :=
  ⟨(updateUser_field_rules ("1".toList) 1 st1 annUser ⟨0, "Bo".toList, []⟩
      (by decide) (by decide)).1 (by decide) (by decide),
    (updateUser_field_rules ("1".toList) 1 st1 annUser ⟨0, "Bob".toList, []⟩
      (by decide) (by decide)).2.2.1 (by decide) (by decide)⟩

/-- C3: if every stored row has a non-empty email accepted by isValidEmail,
then after any createUser or updateUser request — whatever id string, body
and store oracle — every stored row still does: createUser inserts only an
email that passed the create check, and updateUser saves either the fetched
row's email or a newly supplied email that passed the update check. -/
theorem write_preserves_email_invariant (st : Store) (h : emailInvB st = true) :
    (∀ body ok, emailInvB (createUser body ok st).2 = true) ∧
    (∀ idStr body ok, emailInvB (updateUser idStr body ok st).2 = true) := by
  constructor
  · intro body ok
    cases body with
    | badJson => exact h
    | decoded u =>
      by_cases hn : u.name = []
      · simpa [createUser, hn] using h
      · by_cases he : u.email = [] ∨ isValidEmail u.email = false
        · have hr : (createUser (.decoded u) ok st).2 = st := by
            simp only [createUser]
            rw [if_neg hn, if_pos he]
          rw [hr]
          exact h
        · cases ok with
          | false => simpa [createUser, hn, he] using h
          | true =>
            have hene : u.email ≠ [] := fun hx => he (Or.inl hx)
            have hev : isValidEmail u.email = true := by
              cases hb : isValidEmail u.email with
              | false => exact absurd (Or.inr hb) he
              | true => rfl
            have hr : (createUser (.decoded u) true st).2 = (insert u st).2 := by
              simp [createUser, hn, he]
            rw [hr]
            simp only [insert, emailInvB, List.all_append]
            rw [Bool.and_eq_true]
            refine ⟨h, ?_⟩
            simp [emailOkB, isEmpty_eq_false_of_ne_nil hene, hev]
  · intro idStr body ok
    cases hid : goAtoi idStr with
    | none => simpa [updateUser, hid] using h
    | some i =>
      cases hget : getById i st with
      | none => simpa [updateUser, hid, hget] using h
      | some user =>
        cases body with
        | badJson => simpa [updateUser, hid, hget] using h
        | decoded ud =>
          by_cases h1 : ud.name ≠ [] ∧ goLen ud.name < 3
          · simpa [updateUser, hid, hget, h1] using h
          · by_cases h2 : ud.email ≠ [] ∧ isValidEmail ud.email = false
            · have hr : (updateUser idStr (.decoded ud) ok st).2 = st := by
                simp [updateUser, hid, hget, h1, h2]
              rw [hr]
              exact h
            · cases ok with
              | false => simpa [updateUser, hid, hget, h1, h2] using h
              | true =>
                have hmerge : emailOkB (mergeUpdate user ud) = true := by
                  have huser : emailOkB user = true :=
                    List.all_eq_true.mp h user (List.mem_of_find?_eq_some hget)
                  by_cases hne : ud.email = []
                  · have hm : (mergeUpdate user ud).email = user.email := by
                      simp [mergeUpdate, hne]
                    simp only [emailOkB, hm]
                    exact huser
                  · have hev : isValidEmail ud.email = true := by
                      cases hb : isValidEmail ud.email with
                      | false => exact absurd ⟨hne, hb⟩ h2
                      | true => rfl
                    simp [mergeUpdate, emailOkB, hne, hev, isEmpty_eq_false_of_ne_nil hne]
                have hr : (updateUser idStr (.decoded ud) true st).2 =
                    save (mergeUpdate user ud) st := by
                  simp [updateUser, hid, hget, h1, h2]
                rw [hr]
                simp only [save, emailInvB]
                rw [List.all_eq_true]
                intro r hr2
                obtain ⟨r0, hr0, hfr⟩ := List.mem_map.mp hr2
                by_cases hid2 : r0.id = (mergeUpdate user ud).id
                · rw [← hfr, if_pos hid2]
                  exact hmerge
                · rw [← hfr, if_neg hid2]
                  exact List.all_eq_true.mp h r0 hr0

/-- Witness for C3: the one-row store satisfies the invariant, and still does
after a create and after an update. -/
theorem write_preserves_email_invariant_witness :
    emailInvB st1 = true ∧
    emailInvB (createUser (.decoded ⟨0, "Dan".toList, "d@e.fg".toList⟩) true st1).2 = true ∧
    emailInvB (updateUser ("1".toList) (.decoded ⟨0, "Bob".toList, []⟩) true st1).2 = true :=
  ⟨by decide,
    (write_preserves_email_invariant st1 (by decide)).1
      (.decoded ⟨0, "Dan".toList, "d@e.fg".toList⟩) true,
    (write_preserves_email_invariant st1 (by decide)).2
      ("1".toList) (.decoded ⟨0, "Bob".toList, []⟩) true⟩

/-- Counterexample to C10 as written: "€" is a single character, createUser
accepts it as a name, but so does updateUser (200, not 400), because its Go
byte length is 3; hence it is false that a name a user was created with under
3 characters cannot be set via update. -/
theorem one_char_name_settable_via_update :
    (("€".toList)).length = 1 ∧
    (createUser (.decoded ⟨0, "€".toList, "a@b.co".toList⟩) true st1).1.status = 201 ∧
    (updateUser ("1".toList) (.decoded ⟨0, "€".toList, []⟩) true st1).1.status = 200 :=
  ⟨by decide, by decide, by decide⟩

/-- C10 (amended: the update minimum is on the Go byte length): createUser
imposes no minimum length on the name — any non-empty name, of any byte
length, passes create validation and reaches the insert — while updateUser
rejects any supplied name of byte length 1 or 2; so a user created with a 1-
or 2-byte name can exist although that same name cannot be set via update. -/
theorem createUser_no_min_name_length (nm : List Char) (hne : nm ≠ [])
    (hlt : goLen nm < 3) :
    (∀ em st, isValidEmail em = true →
      (createUser (.decoded ⟨0, nm, em⟩) true st).1.status = 201) ∧
    (∀ idStr i st user, goAtoi idStr = some i → getById i st = some user → ∀ em,
      updateUser idStr (.decoded ⟨0, nm, em⟩) true st =
        (⟨400, .errMsg "Name must be at least 3 characters"⟩, st)) := by
  constructor
  · intro em st hem
    have hene : em ≠ [] := by
      intro hx
      rw [hx] at hem
      exact absurd hem (by decide)
    simp [createUser, hne, hem, hene]
  · intro idStr i st user h1 h2 em
    simp [updateUser, h1, h2, hne, hlt]

/-- Witness for C10 (amended) at the 1-byte name "A". -/
theorem createUser_no_min_name_length_witness :
    (createUser (.decoded ⟨0, "A".toList, "a@b.co".toList⟩) true st1).1.status = 201 ∧
    updateUser ("1".toList) (.decoded ⟨0, "A".toList, []⟩) true st1 =
      (⟨400, .errMsg "Name must be at least 3 characters"⟩, st1) :=
  ⟨(createUser_no_min_name_length ("A".toList) (by decide) (by decide)).1
      ("a@b.co".toList) st1 (by decide),
    (createUser_no_min_name_length ("A".toList) (by decide) (by decide)).2
      ("1".toList) 1 st1 annUser (by decide) (by decide) []⟩

end GoApp
